import Mathlib

/-!
Verification of the RuneQuant analysis pipeline (zamorak/main.py).

The pipeline is a single-pass batch computation over snapshot tables.  We
shallowly embed it here:

* pandas float cells become the type `EFloat`: an exact rational, a signed
  infinity, or NaN (NaN also models an absent value, as pandas stores missing
  numeric data as NaN).  Arithmetic follows IEEE-754 conventions on these
  constructors, with exact rational arithmetic in the finite case.
* dataframes become lists of records, one structure field per column.
* pandas reductions (`sum`, `mean`, `std(ddof=0)`) skip NaN entries, as the
  library does by default; this is modelled explicitly.
* `sort_values` carries no stability guarantee (numpy quicksort), so the two
  sorting steps are parameters of the pipeline, constrained only by the
  contract pandas provides: the result is a permutation of the input ordered
  by the sort key (NaN keys last).  Executable instantiations based on
  insertion sort are provided for concrete evaluations.
* `std` applies a square root to a rational variance; the square root on
  nonnegative rationals is a parameter `sq : ℚ → ℚ` of the pipeline, with the
  facts a theorem needs about it (for instance `sq 0 = 0`) taken as
  hypotheses.

Columns of the store that no computation or filter of the analysis reads or
that can never be null (string columns such as `item_id`, `item_name`,
`player_count`, `gst`, the always-present `timestamp` fields, and the
never-null `item_limit` column) are omitted from the row model; `dropna`
cannot fire on them.
-/

namespace RuneQuant

/-- A pandas float cell: exact rational, signed infinity, or NaN. -/
inductive EFloat where
  | fin (q : ℚ)
  | pinf
  | ninf
  | nan
deriving DecidableEq, Repr

namespace EFloat

/-- NaN test, as used by `isna`, `dropna` and `fillna`. -/
def isNan : EFloat → Bool
  | nan => true
  | _ => false

/-- IEEE-style negation. -/
def eneg : EFloat → EFloat
  | fin q => fin (-q)
  | pinf => ninf
  | ninf => pinf
  | nan => nan

/-- IEEE-style addition: NaN propagates, opposite infinities give NaN. -/
def eadd : EFloat → EFloat → EFloat
  | nan, _ => nan
  | _, nan => nan
  | pinf, ninf => nan
  | ninf, pinf => nan
  | pinf, _ => pinf
  | ninf, _ => ninf
  | _, pinf => pinf
  | _, ninf => ninf
  | fin a, fin b => fin (a + b)

/-- IEEE-style subtraction. -/
def esub (a b : EFloat) : EFloat := eadd a (eneg b)

/-- IEEE-style multiplication: NaN propagates, infinity times zero is NaN. -/
def emul : EFloat → EFloat → EFloat
  | nan, _ => nan
  | _, nan => nan
  | fin a, fin b => fin (a * b)
  | pinf, pinf => pinf
  | pinf, ninf => ninf
  | ninf, pinf => ninf
  | ninf, ninf => pinf
  | pinf, fin b => if b = 0 then nan else if 0 < b then pinf else ninf
  | ninf, fin b => if b = 0 then nan else if 0 < b then ninf else pinf
  | fin a, pinf => if a = 0 then nan else if 0 < a then pinf else ninf
  | fin a, ninf => if a = 0 then nan else if 0 < a then ninf else pinf

/-- IEEE-style division.  A nonzero finite numerator over zero gives a signed
infinity (this is what numpy produces for float division by zero); zero over
zero gives NaN.  Rationals carry no signed zero, so a zero denominator is
treated as positive zero, matching the values the pipeline can produce. -/
def ediv : EFloat → EFloat → EFloat
  | nan, _ => nan
  | _, nan => nan
  | fin a, fin b =>
      if b = 0 then (if 0 < a then pinf else if a < 0 then ninf else nan)
      else fin (a / b)
  | fin _, pinf => fin 0
  | fin _, ninf => fin 0
  | pinf, fin b => if b < 0 then ninf else pinf
  | ninf, fin b => if b < 0 then pinf else ninf
  | pinf, pinf => nan
  | pinf, ninf => nan
  | ninf, pinf => nan
  | ninf, ninf => nan

/-- Comparison `a >= b` as pandas evaluates it: any comparison involving NaN
is false. -/
def ege : EFloat → EFloat → Bool
  | nan, _ => false
  | _, nan => false
  | pinf, _ => true
  | _, pinf => false
  | _, ninf => true
  | ninf, _ => false
  | fin a, fin b => decide (b ≤ a)

/-- The `fillna(0)` cell transform. -/
def fillna0 (x : EFloat) : EFloat := if x.isNan then fin 0 else x

/-- The `replace(0, 1)` cell transform: only an exact zero is replaced. -/
def replace01 : EFloat → EFloat
  | fin q => if q = 0 then fin 1 else fin q
  | x => x

/-- Square root, parametrized by a rational square root `sq` for the
nonnegative finite case. -/
def esqrt (sq : ℚ → ℚ) : EFloat → EFloat
  | fin q => if q < 0 then nan else fin (sq q)
  | pinf => pinf
  | ninf => nan
  | nan => nan

end EFloat

open EFloat

/-- IEEE left-fold sum of a list of cells starting at zero (numpy sum over an
array that may contain NaN). -/
def esum (l : List EFloat) : EFloat := l.foldl eadd (fin 0)

/-- The cells of a column that are not NaN. -/
def nonNanVals (l : List EFloat) : List EFloat := l.filter (fun x => !x.isNan)

/-- The pandas `Series.sum()`: NaN entries are skipped; an empty or all-NaN
column sums to 0. -/
def nansum (l : List EFloat) : EFloat := esum (nonNanVals l)

/-- The pandas `Series.mean()`: NaN entries are skipped; the mean of an empty
or all-NaN column is NaN. -/
def nmean (l : List EFloat) : EFloat :=
  let v := nonNanVals l
  if v.length = 0 then nan else ediv (nansum l) (fin (v.length : ℚ))

/-- The pandas `Series.std(ddof=0)`: square root of the mean squared deviation
over the non-NaN entries (denominator is the full non-NaN count N, since
ddof = 0).  NaN for an empty or all-NaN column. -/
def nstd0 (sq : ℚ → ℚ) (l : List EFloat) : EFloat :=
  let v := nonNanVals l
  if v.length = 0 then nan
  else
    let m := nmean l
    esqrt sq (ediv (esum (v.map (fun x => emul (esub x m) (esub x m)))) (fin (v.length : ℚ)))

/-- The z-score column of main.py lines 231-236: center on the column mean,
divide by the column `std(ddof=0)`, then `fillna(0)`. -/
def zscores (sq : ℚ → ℚ) (xs : List EFloat) : List EFloat :=
  let m := nmean xs
  let s := nstd0 sq xs
  xs.map (fun x => fillna0 (ediv (esub x m) s))

/-- One store snapshot row (the numeric columns the analysis reads, plus the
keys and the collection time; the ingestion service always sets
`collection_time`, so it is a plain rational number of seconds). -/
structure Snapshot where
  item_id : String
  item_name : String
  collection_time : ℚ
  high_price_1h : EFloat
  high_price_5m : EFloat
  low_price_1h : EFloat
  low_price_5m : EFloat
  high_volume_1h : EFloat
  high_volume_5m : EFloat
  low_volume_1h : EFloat
  low_volume_5m : EFloat
deriving DecidableEq, Repr

/-- Catalog metadata kept by load_item_mapping (main.py lines 30-34). -/
structure CatMeta where
  name : String
  limit : ℚ
  value : ℚ
deriving DecidableEq, Repr

/-- A raw catalog entry as parsed from mapping.json: each field may be
absent.  The restriction flag `members` is `some b` when present as the JSON
boolean `b` and `none` otherwise (Python compares it with `== False`, so a
missing or non-boolean field never matches). -/
structure RawEntry where
  members : Option Bool
  id : Option String
  name : Option String
  limit : Option ℚ
  value : Option ℚ
deriving DecidableEq, Repr

/-- load_item_mapping (main.py lines 25-34): keep exactly the entries whose
`members` field is present and equal to False and that carry an id; the key is
the id as a string and the metadata takes defaults for missing fields. -/
def loadItemMapping (items : List RawEntry) : List (String × CatMeta) :=
  items.filterMap (fun it =>
    match it.members, it.id with
    | some false, some i =>
        some (i, { name := it.name.getD "Unknown",
                   limit := it.limit.getD 0,
                   value := it.value.getD 0 })
    | _, _ => none)

/-- The population restriction of main.py lines 140-141 and 193-194: with a
non-empty catalog keep only the rows whose item_id is a catalog key; an empty
catalog disables the filter and passes every row through. -/
def restrict (catalog : List (String × CatMeta)) (rows : List Snapshot) : List Snapshot :=
  if catalog.isEmpty then rows
  else rows.filter (fun s => decide (s.item_id ∈ catalog.map Prod.fst))

/-- Code-point lexicographic strict comparison of character lists: the order
Python uses on the string keys pandas groupby sorts by. -/
def lexLt : List Char → List Char → Bool
  | [], [] => false
  | [], _ :: _ => true
  | _ :: _, [] => false
  | a :: as, b :: bs =>
      if a.val.toNat < b.val.toNat then true
      else if b.val.toNat < a.val.toNat then false
      else lexLt as bs

/-- Code-point order on strings. -/
def strLe (a b : String) : Prop := lexLt a.data b.data = true ∨ a.data = b.data

instance : DecidableRel strLe := fun a b => inferInstanceAs (Decidable (_ ∨ _))

/-- Ascending-by-collection-time comparison used by
sort_values(collection_time). -/
def timeLe (a b : Snapshot) : Prop := a.collection_time ≤ b.collection_time

instance : DecidableRel timeLe := fun a b => inferInstanceAs (Decidable (_ ≤ _))

instance : IsTotal Snapshot timeLe := ⟨fun a b => le_total a.collection_time b.collection_time⟩

instance : IsTrans Snapshot timeLe := ⟨fun _ _ _ h h2 => le_trans h h2⟩

/-- The contract of sort_values(collection_time) (main.py line 203): the
result is a permutation of the input with non-decreasing collection times.
The sort kind (numpy quicksort) guarantees nothing further, so the pipeline
takes the sorting function as a parameter constrained by this predicate. -/
def TimeSortSpec (f : List Snapshot → List Snapshot) : Prop :=
  ∀ l, (f l).Perm l ∧ (f l).Pairwise timeLe

/-- An executable sort satisfying TimeSortSpec, for concrete evaluations. -/
def timeSortImpl (l : List Snapshot) : List Snapshot := l.insertionSort timeLe

/-- Group keys in the order pandas groupby emits them: distinct values sorted
ascending (sort=True is the groupby default). -/
def sortedKeys (l : List String) : List String :=
  (l.dedup).insertionSort strLe

/-- Last non-NaN entry of a column, or NaN when there is none.  This is what
DataFrameGroupBy.last() computes for each column of a group once the rows are
in sorted order. -/
def lastNonNan (l : List EFloat) : EFloat :=
  l.foldl (fun acc x => if x.isNan then acc else x) nan

/-- main.py line 203: sort by collection_time, group by item_id, take the last
non-null entry of every column.  The input must already be time-sorted; the
output carries one row per distinct item_id, keys ascending. -/
def groupLast (sorted : List Snapshot) : List Snapshot :=
  (sortedKeys (sorted.map Snapshot.item_id)).map (fun k =>
    let g := sorted.filter (fun s => decide (s.item_id = k))
    { item_id := k
      item_name := (g.map Snapshot.item_name).getLastD ""
      collection_time := (g.map Snapshot.collection_time).getLastD 0
      high_price_1h := lastNonNan (g.map Snapshot.high_price_1h)
      high_price_5m := lastNonNan (g.map Snapshot.high_price_5m)
      low_price_1h := lastNonNan (g.map Snapshot.low_price_1h)
      low_price_5m := lastNonNan (g.map Snapshot.low_price_5m)
      high_volume_1h := lastNonNan (g.map Snapshot.high_volume_1h)
      high_volume_5m := lastNonNan (g.map Snapshot.high_volume_5m)
      low_volume_1h := lastNonNan (g.map Snapshot.low_volume_1h)
      low_volume_5m := lastNonNan (g.map Snapshot.low_volume_5m) })

/-- One row of the Throughput Estimator output (get_historical_gold_per_second
returns item_id, item_name and gold_per_second). -/
structure GpsRow where
  item_id : String
  item_name : String
  gold_per_second : EFloat
deriving DecidableEq, Repr

/-- Earliest collection time of a group (x.collection_time.min()). -/
def minT (g : List Snapshot) : ℚ :=
  match g.map Snapshot.collection_time with
  | [] => 0
  | t :: ts => ts.foldl min t

/-- Latest collection time of a group (x.collection_time.max()). -/
def maxT (g : List Snapshot) : ℚ :=
  match g.map Snapshot.collection_time with
  | [] => 0
  | t :: ts => ts.foldl max t

/-- Elapsed seconds between the first and last snapshot of a group
(main.py line 155). -/
def timeSpan (g : List Snapshot) : ℚ := maxT g - minT g

/-- The Throughput Estimator body for one (item_id, item_name) group
(main.py lines 145-161): value totals are sums of price times volume with NaN
products skipped, the elapsed span has an exact zero replaced by 1
(`replace(0, 1)`), and gold_per_second is half the total value over the
span. -/
def gpsRowOf (key : String × String) (g : List Snapshot) : GpsRow :=
  let th := nansum (g.map (fun s => emul s.high_price_1h s.high_volume_1h))
  let tl := nansum (g.map (fun s => emul s.low_price_1h s.low_volume_1h))
  let span := timeSpan g
  let span1 := if span = 0 then 1 else span
  { item_id := key.1
    item_name := key.2
    gold_per_second := ediv (ediv (eadd th tl) (fin 2)) (fin span1) }

/-- Lexicographic order on (item_id, item_name) group keys, the order pandas
groupby emits pair keys in. -/
def pairLe (a b : String × String) : Prop :=
  lexLt a.1.data b.1.data = true ∨ (a.1.data = b.1.data ∧ strLe a.2 b.2)

instance : DecidableRel pairLe := fun a b => inferInstanceAs (Decidable (_ ∨ _))

/-- Distinct (item_id, item_name) pairs of a table, in groupby key order. -/
def pairKeys (rows : List Snapshot) : List (String × String) :=
  ((rows.map (fun s => (s.item_id, s.item_name))).dedup).insertionSort pairLe

/-- get_historical_gold_per_second (main.py lines 117-163) as a function of
the already-fetched long-window table: empty input gives an empty result
(line 131); a table emptied by the catalog restriction also yields an empty
result (the groupby-apply on an empty frame produces a frame without the
expected columns and the subsequent column access raises, which the except
clause turns into an empty frame); otherwise one row per (item_id, item_name)
group. -/
def gpsOf (catalog : List (String × CatMeta)) (historical : List Snapshot) : List GpsRow :=
  if historical.isEmpty then []
  else
    let h := restrict catalog historical
    if h.isEmpty then []
    else (pairKeys h).map (fun k =>
      gpsRowOf k (h.filter (fun s => decide (s.item_id = k.1 ∧ s.item_name = k.2))))

/-- One row of the Opportunity Scorer table.  Fields are assigned in pipeline
order; a field not yet assigned at a given stage holds NaN and is read by
nothing before its assignment (`dropnaOK` reads exactly the columns that
exist when line 245 runs). -/
structure ORow where
  item_id : String
  item_name : String
  collection_time : ℚ
  high_price_1h : EFloat
  high_price_5m : EFloat
  low_price_1h : EFloat
  low_price_5m : EFloat
  high_volume_1h : EFloat
  high_volume_5m : EFloat
  low_volume_1h : EFloat
  low_volume_5m : EFloat
  sell_total : EFloat
  buy_total : EFloat
  tax_amount : EFloat
  roi : EFloat
  volume_ratio : EFloat
  gold_per_second : EFloat
  roi_zscore : EFloat
  volume_ratio_zscore : EFloat
  combined_score : EFloat
  max_trades_per_hour : EFloat
  profit_per_trade : EFloat
  expected_profit_per_hour : EFloat
deriving DecidableEq, Repr

/-- main.py lines 206-212: sell/buy totals are the latest 1h prices, the tax
is a flat 1 percent of the sell side, roi is the after-tax margin over the
buy total, and the volume ratio divides by the low volume with an exact zero
replaced by 1. -/
def mkScored (s : Snapshot) : ORow :=
  let sell := s.high_price_1h
  let buy := s.low_price_1h
  let tax := emul sell (fin (1 / 100))
  { item_id := s.item_id
    item_name := s.item_name
    collection_time := s.collection_time
    high_price_1h := s.high_price_1h
    high_price_5m := s.high_price_5m
    low_price_1h := s.low_price_1h
    low_price_5m := s.low_price_5m
    high_volume_1h := s.high_volume_1h
    high_volume_5m := s.high_volume_5m
    low_volume_1h := s.low_volume_1h
    low_volume_5m := s.low_volume_5m
    sell_total := sell
    buy_total := buy
    tax_amount := tax
    roi := ediv (esub (esub sell tax) buy) buy
    volume_ratio := ediv s.high_volume_1h (replace01 s.low_volume_1h)
    gold_per_second := nan
    roi_zscore := nan
    volume_ratio_zscore := nan
    combined_score := nan
    max_trades_per_hour := nan
    profit_per_trade := nan
    expected_profit_per_hour := nan }

/-- main.py lines 223-225: left-join one scored row against the throughput
table on the (item_id, item_name) pair; a missing match leaves NaN which the
column-level fillna(0) then turns into 0. -/
def mergeRow (g : List GpsRow) (r : ORow) : ORow :=
  match g.find? (fun e => decide (e.item_id = r.item_id ∧ e.item_name = r.item_name)) with
  | some e => { r with gold_per_second := fillna0 e.gold_per_second }
  | none => { r with gold_per_second := fin 0 }

/-- The left-join plus fillna(0) over a whole table; left row order is
preserved and the grouped right table has at most one row per key pair. -/
def mergeGps (rp : List ORow) (g : List GpsRow) : List ORow := rp.map (mergeRow g)

/-- main.py lines 231-239 for one row of the surviving population `pop`:
z-score roi and volume_ratio against the column mean and `std(ddof=0)` of
`pop`, replace a NaN z-score by 0, and sum the two into the combined score. -/
def zRow (sq : ℚ → ℚ) (pop : List ORow) (r : ORow) : ORow :=
  let mr := nmean (pop.map ORow.roi)
  let sr := nstd0 sq (pop.map ORow.roi)
  let mv := nmean (pop.map ORow.volume_ratio)
  let sv := nstd0 sq (pop.map ORow.volume_ratio)
  let zr := fillna0 (ediv (esub r.roi mr) sr)
  let zv := fillna0 (ediv (esub r.volume_ratio mv) sv)
  { r with roi_zscore := zr, volume_ratio_zscore := zv, combined_score := eadd zr zv }

/-- The z-score and combined-score stage over the whole surviving table. -/
def setZ (sq : ℚ → ℚ) (l : List ORow) : List ORow := l.map (zRow sq l)

/-- Columns present when main.py line 245 runs `dropna()`: the row is kept
only if none of them is NaN.  (`collection_time`, the key strings and the
`item_limit` column are never null; the profit columns do not exist yet.) -/
def dropnaOK (r : ORow) : Bool :=
  !(r.high_price_1h.isNan || r.high_price_5m.isNan || r.low_price_1h.isNan ||
    r.low_price_5m.isNan || r.high_volume_1h.isNan || r.high_volume_5m.isNan ||
    r.low_volume_1h.isNan || r.low_volume_5m.isNan || r.sell_total.isNan ||
    r.buy_total.isNan || r.tax_amount.isNan || r.roi.isNan ||
    r.volume_ratio.isNan || r.gold_per_second.isNan || r.roi_zscore.isNan ||
    r.volume_ratio_zscore.isNan || r.combined_score.isNan)

/-- main.py lines 251-253, run after the final sort: projected trades per
hour, profit per trade after the 1 percent sell tax, and their product. -/
def setProfit (r : ORow) : ORow :=
  let ppt := esub (emul r.high_price_1h (fin (99 / 100))) r.low_price_1h
  { r with max_trades_per_hour := r.low_volume_1h,
           profit_per_trade := ppt,
           expected_profit_per_hour := emul ppt r.low_volume_1h }

/-- Output order of sort_values(combined_score, ascending=False): a row may
precede another when the second key is NaN (NaN keys sort last) or when both
keys are non-NaN and the first is at least the second. -/
def scoreOrd (a b : ORow) : Prop :=
  (b.combined_score.isNan = true) ∨
    (a.combined_score.isNan = false ∧ ege a.combined_score b.combined_score = true)

instance : DecidableRel scoreOrd := fun a b => inferInstanceAs (Decidable (_ ∨ _))

/-- The contract of sort_values(combined_score, ascending=False)
(main.py line 248): a permutation of the input, non-increasing in the
combined score with NaN keys last.  numpy quicksort promises no stability,
so the pipeline takes the sorting function as a parameter constrained by
this predicate. -/
def ScoreSortSpec (f : List ORow → List ORow) : Prop :=
  ∀ l, (f l).Perm l ∧ (f l).Pairwise scoreOrd

/-- An executable sort satisfying ScoreSortSpec. -/
def scoreSortImpl (l : List ORow) : List ORow := l.insertionSort scoreOrd

/-- Another executable sort satisfying ScoreSortSpec; it reverses the input
before sorting, so rows with equal keys come out in reversed input order. -/
def revScoreSort (l : List ORow) : List ORow := l.reverse.insertionSort scoreOrd

/-- The Opportunity Scorer stages from the latest-snapshot selection up to
(and including) the dropna of main.py line 245, parametrized by the
collection-time sort and the rational square root. -/
def preSort (sortT : List Snapshot → List Snapshot) (sq : ℚ → ℚ)
    (catalog : List (String × CatMeta)) (minLowVolume : ℚ)
    (recent historical : List Snapshot) : List ORow :=
  let rp := (groupLast (sortT (restrict catalog recent))).map mkScored
  let merged := mergeGps rp (gpsOf catalog historical)
  let viable := merged.filter (fun r => ege r.low_volume_1h (fin minLowVolume))
  let gated := (setZ sq viable).filter (fun r => ege r.gold_per_second (fin 0))
  gated.filter dropnaOK

/-- analyze_items (main.py lines 169-261) as a function of the two fetched
tables.  An empty recent table returns immediately (line 184); an empty
throughput table leaves the merged frame without a gold_per_second column and
the access on line 242 raises, which the except clause turns into an empty
frame; otherwise the pipeline of filters, scores, the final sort and the
profit projections runs. -/
def analyzeItems (sortT : List Snapshot → List Snapshot) (sortS : List ORow → List ORow)
    (sq : ℚ → ℚ) (catalog : List (String × CatMeta)) (minLowVolume : ℚ)
    (recent historical : List Snapshot) : List ORow :=
  if recent.isEmpty then []
  else if (gpsOf catalog historical).isEmpty then []
  else (sortS (preSort sortT sq catalog minLowVolume recent historical)).map setProfit

/-- Modelled from the spec: population mean over a rational column. -/
def specPopMean (xs : List ℚ) : ℚ := xs.sum / xs.length

/-- Modelled from the spec: population standard deviation, denominator N
(not N - 1), square root taken by `sq`. -/
def specPopStd (sq : ℚ → ℚ) (xs : List ℚ) : ℚ :=
  sq (((xs.map (fun x => (x - specPopMean xs) * (x - specPopMean xs))).sum) / xs.length)

/-- Modelled from the spec: z-score against the population mean and standard
deviation, defined as zero when the standard deviation is zero. -/
def specZscore (sq : ℚ → ℚ) (xs : List ℚ) (x : ℚ) : ℚ :=
  if specPopStd sq xs = 0 then 0 else (x - specPopMean xs) / specPopStd sq xs

/-- Modelled from the spec (section 4.4 as the claim reads it): value totals
halved over the elapsed span floored to a minimum of one second, that is
divided by max(span, 1). -/
def specGpsFloor (th tl span : ℚ) : ℚ := ((th + tl) / 2) / max span 1

/-- The per-group throughput formula the code actually computes, in rational
form: the divisor replaces only an exact zero span by 1. -/
def specGpsReplace (th tl span : ℚ) : ℚ := ((th + tl) / 2) / (if span = 0 then 1 else span)

/-- The population variance in rational form. -/
def ratVar (xs : List ℚ) : ℚ :=
  ((xs.map (fun x => (x - specPopMean xs) * (x - specPopMean xs))).sum) / xs.length

/-- A rational square root adequate for every concrete evaluation in this
file: correct on 0, 1/4, 1 and 4, and nonzero on every positive rational. -/
def testSqrt (q : ℚ) : ℚ :=
  if q = 0 then 0 else if q = 1 / 4 then 1 / 2 else if q = 1 then 1 else if q = 4 then 2 else q

/-- A snapshot whose most recent low price is exactly zero while the high
side trades: the roi division then has a zero denominator. -/
def snapBuyZero : Snapshot :=
  { item_id := "1", item_name := "x", collection_time := 0,
    high_price_1h := fin 100, high_price_5m := fin 1,
    low_price_1h := fin 0, low_price_5m := fin 1,
    high_volume_1h := fin 10, high_volume_5m := fin 1,
    low_volume_1h := fin 500, low_volume_5m := fin 1 }

/-- A snapshot with sell total 110 and buy total 100. -/
def snapRoi : Snapshot :=
  { item_id := "1", item_name := "x", collection_time := 0,
    high_price_1h := fin 110, high_price_5m := fin 1,
    low_price_1h := fin 100, low_price_5m := fin 1,
    high_volume_1h := fin 10, high_volume_5m := fin 1,
    low_volume_1h := fin 500, low_volume_5m := fin 1 }

/-- A snapshot with a zero low volume and high volume 7. -/
def snapVr : Snapshot :=
  { item_id := "1", item_name := "x", collection_time := 0,
    high_price_1h := fin 1, high_price_5m := fin 1,
    low_price_1h := fin 1, low_price_5m := fin 1,
    high_volume_1h := fin 7, high_volume_5m := fin 1,
    low_volume_1h := fin 0, low_volume_5m := fin 1 }

/-- A family of identical viable snapshots distinguished only by their key:
any two of them tie on every score. -/
def snapTie (i : String) : Snapshot :=
  { item_id := i, item_name := i, collection_time := 0,
    high_price_1h := fin 110, high_price_5m := fin 1,
    low_price_1h := fin 100, low_price_5m := fin 1,
    high_volume_1h := fin 10, high_volume_5m := fin 1,
    low_volume_1h := fin 500, low_volume_5m := fin 1 }

/-- A historical snapshot at time `t` contributing 100 to the high total and
50 to the low total. -/
def snapSpan (t : ℚ) : Snapshot :=
  { item_id := "1", item_name := "x", collection_time := t,
    high_price_1h := fin 20, high_price_5m := fin 1,
    low_price_1h := fin 10, low_price_5m := fin 1,
    high_volume_1h := fin 5, high_volume_5m := fin 1,
    low_volume_1h := fin 5, low_volume_5m := fin 1 }

/-- A single historical snapshot with high total 200, low total 100 and a
zero elapsed span. -/
def snapSpan0 : Snapshot :=
  { item_id := "1", item_name := "x", collection_time := 0,
    high_price_1h := fin 40, high_price_5m := fin 1,
    low_price_1h := fin 20, low_price_5m := fin 1,
    high_volume_1h := fin 5, high_volume_5m := fin 1,
    low_volume_1h := fin 5, low_volume_5m := fin 1 }

/-- Catalog metadata for concrete instances. -/
def metaOne : CatMeta := { name := "x", limit := 0, value := 0 }

/-- A one-entry catalog whose only key is the id 1. -/
def catOne : List (String × CatMeta) := [("1", metaOne)]

/-- A raw catalog entry for an unrestricted (members = false) item. -/
def rawFree : RawEntry :=
  { members := some false, id := some "1", name := some "x", limit := some 3, value := some 5 }

/-- A raw catalog entry for a restricted (members = true) item. -/
def rawMember : RawEntry :=
  { members := some true, id := some "2", name := some "m", limit := none, value := none }

/-- A raw catalog entry lacking the id field. -/
def rawNoId : RawEntry :=
  { members := some false, id := none, name := none, limit := none, value := none }

/-- The scored row the pipeline derives from snapTie i: a 1 percent tax of
11/10 on the sell total 110, roi (110 - 11/10 - 100)/100 = 89/1000 and
volume ratio 10/500 = 1/50; later columns still unassigned. -/
def tieRow (i : String) : ORow :=
  { item_id := i, item_name := i, collection_time := 0,
    high_price_1h := fin 110, high_price_5m := fin 1,
    low_price_1h := fin 100, low_price_5m := fin 1,
    high_volume_1h := fin 10, high_volume_5m := fin 1,
    low_volume_1h := fin 500, low_volume_5m := fin 1,
    sell_total := fin 110, buy_total := fin 100, tax_amount := fin (11 / 10),
    roi := fin (89 / 1000), volume_ratio := fin (1 / 50),
    gold_per_second := nan, roi_zscore := nan, volume_ratio_zscore := nan,
    combined_score := nan, max_trades_per_hour := nan, profit_per_trade := nan,
    expected_profit_per_hour := nan }

/-- The fully scored row for item a: its throughput joined from the
historical table, degenerate z-scores 0 and combined score 0. -/
def zTieA : ORow :=
  { tieRow "a" with
      gold_per_second := fin 25550
      roi_zscore := fin 0
      volume_ratio_zscore := fin 0
      combined_score := fin 0 }

/-- The fully scored row for item b: absent from the throughput table, so its
gold_per_second is the joined default 0. -/
def zTieB : ORow :=
  { tieRow "b" with
      gold_per_second := fin 0
      roi_zscore := fin 0
      volume_ratio_zscore := fin 0
      combined_score := fin 0 }

/-- The merged (pre-z-score) row for item a. -/
def mTieA : ORow := { tieRow "a" with gold_per_second := fin 25550 }

/-- The merged (pre-z-score) row for item b. -/
def mTieB : ORow := { tieRow "b" with gold_per_second := fin 0 }

/-- A snapshot whose low volume sits one unit below the default viability
threshold of 5. -/
def snapLv4 : Snapshot :=
  { item_id := "1", item_name := "x", collection_time := 0,
    high_price_1h := fin 1, high_price_5m := fin 1,
    low_price_1h := fin 1, low_price_5m := fin 1,
    high_volume_1h := fin 1, high_volume_5m := fin 1,
    low_volume_1h := fin 4, low_volume_5m := fin 1 }

namespace EFloat

@[simp] theorem isNan_fin (q : ℚ) : (fin q).isNan = false := rfl

@[simp] theorem isNan_pinf : pinf.isNan = false := rfl

@[simp] theorem isNan_ninf : ninf.isNan = false := rfl

@[simp] theorem isNan_nan : nan.isNan = true := rfl

@[simp] theorem eadd_fin_fin (a b : ℚ) : eadd (fin a) (fin b) = fin (a + b) := rfl

@[simp] theorem esub_fin_fin (a b : ℚ) : esub (fin a) (fin b) = fin (a - b) := by
  simp [esub, eadd, eneg, sub_eq_add_neg]

@[simp] theorem emul_fin_fin (a b : ℚ) : emul (fin a) (fin b) = fin (a * b) := rfl

theorem ediv_fin_fin_of_ne (a b : ℚ) (hb : b ≠ 0) : ediv (fin a) (fin b) = fin (a / b) := by
  simp [ediv, hb]

@[simp] theorem ediv_fin_zero_zero : ediv (fin 0) (fin 0) = nan := by
  simp [ediv]

@[simp] theorem fillna0_nan : fillna0 nan = fin 0 := rfl

@[simp] theorem fillna0_fin (q : ℚ) : fillna0 (fin q) = fin q := rfl

@[simp] theorem ege_fin_fin (a b : ℚ) : ege (fin a) (fin b) = decide (b ≤ a) := rfl

theorem ege_total_of_not_nan {x y : EFloat} (hx : x.isNan = false) (hy : y.isNan = false) :
    ege x y = true ∨ ege y x = true := by
  cases x <;> cases y <;> simp_all [ege, isNan]
  exact le_total _ _

theorem ege_trans_of_true {x y z : EFloat} (h1 : ege x y = true) (h2 : ege y z = true) :
    ege x z = true := by
  cases x <;> cases y <;> cases z <;> simp_all [ege]
  exact le_trans h2 h1

theorem not_nan_of_ege_true {x y : EFloat} (h : ege x y = true) :
    x.isNan = false ∧ y.isNan = false := by
  cases x <;> cases y <;> simp_all [ege]

end EFloat

instance : IsTotal ORow scoreOrd := by
  constructor
  intro a b
  rcases hb : b.combined_score.isNan with hb' | hb'
  · rcases ha : a.combined_score.isNan with ha' | ha'
    · rcases ege_total_of_not_nan ha hb with h | h
      · exact Or.inl (Or.inr ⟨ha, h⟩)
      · exact Or.inr (Or.inr ⟨hb, h⟩)
    · exact Or.inr (Or.inl ha)
  · exact Or.inl (Or.inl hb)

instance : IsTrans ORow scoreOrd := by
  constructor
  intro a b c hab hbc
  rcases hbc with hc | ⟨hb, hbc⟩
  · exact Or.inl hc
  · rcases hab with hb2 | ⟨ha, hab⟩
    · rw [hb] at hb2; exact absurd hb2 (by simp)
    · exact Or.inr ⟨ha, ege_trans_of_true hab hbc⟩

/-- The executable time sort meets the sort_values contract. -/
theorem timeSortImpl_spec : TimeSortSpec timeSortImpl := by
  intro l
  exact ⟨List.perm_insertionSort timeLe l, List.sorted_insertionSort timeLe l⟩

/-- The executable score sort meets the sort_values contract. -/
theorem scoreSortImpl_spec : ScoreSortSpec scoreSortImpl := by
  intro l
  exact ⟨List.perm_insertionSort scoreOrd l, List.sorted_insertionSort scoreOrd l⟩

/-- The reversing score sort also meets the sort_values contract: the
contract does not pin down the order of rows with equal keys. -/
theorem revScoreSort_spec : ScoreSortSpec revScoreSort := by
  intro l
  refine ⟨(List.perm_insertionSort scoreOrd l.reverse).trans l.reverse_perm, ?_⟩
  exact List.sorted_insertionSort scoreOrd l.reverse

open List in
/-- Folding IEEE addition of finite cells from a finite accumulator adds the
rational values. -/
theorem foldl_eadd_map_fin (xs : List ℚ) (a : ℚ) :
    (xs.map EFloat.fin).foldl eadd (fin a) = fin (a + xs.sum) := by
  induction xs generalizing a with
  | nil => simp
  | cons x xs ih => simp [ih, add_assoc]

/-- A finite-valued column has no NaN entries to skip. -/
theorem nonNanVals_map_fin (xs : List ℚ) : nonNanVals (xs.map EFloat.fin) = xs.map EFloat.fin := by
  simp [nonNanVals, List.filter_eq_self]

theorem nansum_map_fin (xs : List ℚ) : nansum (xs.map EFloat.fin) = fin xs.sum := by
  simp [nansum, nonNanVals_map_fin, esum, foldl_eadd_map_fin]

theorem nmean_map_fin (xs : List ℚ) (h : xs ≠ []) :
    nmean (xs.map EFloat.fin) = fin (xs.sum / xs.length) := by
  have hlen : xs.length ≠ 0 := by simpa using h
  simp only [nmean, nonNanVals_map_fin, List.length_map, nansum_map_fin]
  rw [if_neg hlen, ediv_fin_fin_of_ne]
  exact_mod_cast hlen

/-- Sum of squares of the deviations is nonnegative. -/
theorem devsq_sum_nonneg (xs : List ℚ) (m : ℚ) :
    0 ≤ (xs.map (fun x => (x - m) * (x - m))).sum := by
  apply List.sum_nonneg
  intro q hq
  rcases List.mem_map.mp hq with ⟨x, _, rfl⟩
  exact mul_self_nonneg _

/-- A sum of nonnegative rationals is zero only when every term is zero. -/
theorem sum_eq_zero_all_zero (l : List ℚ) (hpos : ∀ x ∈ l, 0 ≤ x) (hz : l.sum = 0) :
    ∀ x ∈ l, x = 0 := by
  induction l with
  | nil => simp
  | cons a t ih =>
      have ha : 0 ≤ a := hpos a (by simp)
      have ht : 0 ≤ t.sum := List.sum_nonneg (fun x hx => hpos x (List.mem_cons_of_mem _ hx))
      have hsum : a + t.sum = 0 := by simpa using hz
      have ha0 : a = 0 := le_antisymm (by linarith) ha
      have ht0 : t.sum = 0 := by linarith
      intro x hx
      rcases List.mem_cons.mp hx with rfl | hx
      · exact ha0
      · exact ih (fun y hy => hpos y (List.mem_cons_of_mem _ hy)) ht0 x hx

/-- The `std(ddof=0)` of a nonempty finite-valued column is the square root
of the population variance with denominator N. -/
theorem nstd0_map_fin (sq : ℚ → ℚ) (xs : List ℚ) (h : xs ≠ []) :
    nstd0 sq (xs.map EFloat.fin) =
      fin (sq ((xs.map (fun x => (x - specPopMean xs) * (x - specPopMean xs))).sum / xs.length)) := by
  have hlen : xs.length ≠ 0 := by simpa using h
  have hlenq : (xs.length : ℚ) ≠ 0 := by exact_mod_cast hlen
  simp only [nstd0, nonNanVals_map_fin, List.length_map]
  rw [if_neg hlen]
  rw [nmean_map_fin xs h]
  have hmap : (xs.map EFloat.fin).map
      (fun x => emul (esub x (fin (xs.sum / xs.length))) (esub x (fin (xs.sum / xs.length)))) =
      (xs.map (fun x => (x - specPopMean xs) * (x - specPopMean xs))).map EFloat.fin := by
    simp [List.map_map, Function.comp, specPopMean]
  rw [hmap]
  have hsum : esum ((xs.map (fun x => (x - specPopMean xs) * (x - specPopMean xs))).map EFloat.fin)
      = fin ((xs.map (fun x => (x - specPopMean xs) * (x - specPopMean xs))).sum) := by
    simpa [esum] using
      foldl_eadd_map_fin (xs.map (fun x => (x - specPopMean xs) * (x - specPopMean xs))) 0
  rw [hsum, ediv_fin_fin_of_ne _ _ hlenq]
  have hnn : ¬ ((xs.map (fun x => (x - specPopMean xs) * (x - specPopMean xs))).sum / xs.length < 0) := by
    push_neg
    exact div_nonneg (devsq_sum_nonneg xs _) (by positivity)
  simp [esqrt, hnn]

/-- The testSqrt helper vanishes at zero. -/
theorem testSqrt_zero : testSqrt 0 = 0 := by norm_num [testSqrt]

/-- The testSqrt helper is nonzero on positive rationals. -/
theorem testSqrt_pos (q : ℚ) (h : 0 < q) : testSqrt q ≠ 0 := by
  unfold testSqrt
  split_ifs with h1 h2 h3 h4
  · exact absurd h1 (ne_of_gt h)
  · norm_num
  · norm_num
  · norm_num
  · exact ne_of_gt h

/-- The z-score column of a nonempty finite-valued population equals the
spec-side z-score: center on the population mean, divide by the population
standard deviation (denominator N), and fall back to zero when that standard
deviation is zero. -/
theorem zscores_map_fin (sq : ℚ → ℚ) (h0 : sq 0 = 0) (hpos : ∀ q : ℚ, 0 < q → sq q ≠ 0)
    (xs : List ℚ) (h : xs ≠ []) :
    zscores sq (xs.map EFloat.fin) = xs.map (fun x => EFloat.fin (specZscore sq xs x)) := by
  have hlen : xs.length ≠ 0 := by simpa using h
  have hlenq : (xs.length : ℚ) ≠ 0 := by exact_mod_cast hlen
  have hstd : specPopStd sq xs = sq (ratVar xs) := rfl
  unfold zscores
  rw [nmean_map_fin xs h, nstd0_map_fin sq xs h]
  rw [List.map_map]
  apply List.map_congr_left
  intro x hx
  simp only [Function.comp]
  rw [esub_fin_fin]
  have hμ : xs.sum / (xs.length : ℚ) = specPopMean xs := rfl
  have hvr : ((xs.map (fun x => (x - specPopMean xs) * (x - specPopMean xs))).sum) / (xs.length : ℚ)
      = ratVar xs := rfl
  rw [hμ, hvr]
  by_cases hvar : ratVar xs = 0
  · have hs0 : sq (ratVar xs) = 0 := by rw [hvar, h0]
    have hsum0 : (xs.map (fun x => (x - specPopMean xs) * (x - specPopMean xs))).sum = 0 := by
      have h2 := hvar
      unfold ratVar at h2
      field_simp at h2
      exact h2
    have hxm : x - specPopMean xs = 0 := by
      have hall := sum_eq_zero_all_zero _ (fun q hq => by
        rcases List.mem_map.mp hq with ⟨y, _, rfl⟩
        exact mul_self_nonneg _) hsum0
      have hx' := hall ((x - specPopMean xs) * (x - specPopMean xs))
        (List.mem_map.mpr ⟨x, hx, rfl⟩)
      exact mul_self_eq_zero.mp hx'
    have hz : specZscore sq xs x = 0 := by
      unfold specZscore
      rw [hstd, hs0]
      simp
    rw [hz, hxm, hs0]
    simp
  · have hvpos : 0 < ratVar xs := by
      rcases lt_or_eq_of_le (div_nonneg (devsq_sum_nonneg xs _) (by positivity) :
        (0 : ℚ) ≤ ratVar xs) with hlt | heq
      · exact hlt
      · exact absurd heq.symm hvar
    have hsne : sq (ratVar xs) ≠ 0 := hpos _ hvpos
    rw [ediv_fin_fin_of_ne _ _ hsne, fillna0_fin]
    unfold specZscore
    rw [hstd, if_neg hsne]

/-- The roi z-score column of the scoring stage is the z-score transform of
the roi column of the surviving population. -/
theorem setZ_roi_col (sq : ℚ → ℚ) (l : List ORow) :
    (setZ sq l).map ORow.roi_zscore = zscores sq (l.map ORow.roi) := by
  simp [setZ, zRow, zscores, List.map_map, Function.comp]

/-- The volume-ratio z-score column of the scoring stage is the z-score
transform of the volume_ratio column of the surviving population. -/
theorem setZ_vr_col (sq : ℚ → ℚ) (l : List ORow) :
    (setZ sq l).map ORow.volume_ratio_zscore = zscores sq (l.map ORow.volume_ratio) := by
  simp [setZ, zRow, zscores, List.map_map, Function.comp]

/-- C2: for every population of rows surviving the viability filter, both
z-score columns are computed against that population's mean and population
standard deviation (denominator N, via std(ddof=0)), and whenever that
standard deviation is zero — in particular for every single-row population —
both z-scores are exactly 0 rather than undefined. -/
theorem claim_C2 (sq : ℚ → ℚ) (h0 : sq 0 = 0) (hpos : ∀ q : ℚ, 0 < q → sq q ≠ 0) :
    (∀ l : List ORow,
      (setZ sq l).map ORow.roi_zscore = zscores sq (l.map ORow.roi) ∧
      (setZ sq l).map ORow.volume_ratio_zscore = zscores sq (l.map ORow.volume_ratio)) ∧
    (∀ xs : List ℚ, xs ≠ [] →
      zscores sq (xs.map EFloat.fin) = xs.map (fun x => EFloat.fin (specZscore sq xs x))) ∧
    (∀ xs : List ℚ, specPopStd sq xs = 0 →
      ∀ z ∈ zscores sq (xs.map EFloat.fin), z = EFloat.fin 0) ∧
    (∀ x : ℚ, zscores sq [EFloat.fin x] = [EFloat.fin 0]) := by
  refine ⟨fun l => ⟨setZ_roi_col sq l, setZ_vr_col sq l⟩, zscores_map_fin sq h0 hpos, ?_, ?_⟩
  · intro xs hstd z hz
    rcases List.eq_nil_or_concat xs with rfl | _
    · simp [zscores] at hz
    · have hne : xs ≠ [] := by rintro rfl; simp_all
      rw [zscores_map_fin sq h0 hpos xs hne] at hz
      rcases List.mem_map.mp hz with ⟨x, _, rfl⟩
      unfold specZscore
      rw [if_pos hstd]
  · intro x
    have h1 : zscores sq [EFloat.fin x] = zscores sq ([x].map EFloat.fin) := rfl
    rw [h1, zscores_map_fin sq h0 hpos [x] (by simp)]
    have hstd : specPopStd sq [x] = 0 := by
      simp [specPopStd, specPopMean, h0]
    simp [specZscore, hstd]

/-- Witness for C2 at the concrete square root testSqrt, the two-row
population (0, 1) and a single-row population. -/
theorem claim_C2_witness :
    zscores testSqrt ([0, 1].map EFloat.fin) =
      [0, 1].map (fun x => EFloat.fin (specZscore testSqrt [0, 1] x)) ∧
    zscores testSqrt [EFloat.fin 5] = [EFloat.fin 0] ∧
    zscores testSqrt ([0, 1].map EFloat.fin) = [EFloat.fin (-1), EFloat.fin 1] := by
  refine ⟨(claim_C2 testSqrt testSqrt_zero testSqrt_pos).2.1 [0, 1] (by simp),
    (claim_C2 testSqrt testSqrt_zero testSqrt_pos).2.2.2 5, ?_⟩
  rw [(claim_C2 testSqrt testSqrt_zero testSqrt_pos).2.1 [0, 1] (by simp)]
  norm_num [specZscore, specPopStd, specPopMean, testSqrt]

/-- C7: the roi computation applies a flat 1 percent tax on the sell side;
with sell_total 110 and buy_total 100 the tax is exactly 11/10 = 1.1 and the
roi is exactly 89/1000 = 0.089 (the model computes in exact rationals). -/
theorem claim_C7 (s : Snapshot) :
    (mkScored s).tax_amount = emul (mkScored s).sell_total (EFloat.fin (1 / 100)) ∧
    (s.high_price_1h = EFloat.fin 110 → s.low_price_1h = EFloat.fin 100 →
      (mkScored s).tax_amount = EFloat.fin (11 / 10) ∧
      (mkScored s).roi = EFloat.fin (89 / 1000)) := by
  refine ⟨rfl, fun h1 h2 => ?_⟩
  have ht : (mkScored s).tax_amount = emul s.high_price_1h (EFloat.fin (1 / 100)) := rfl
  have hr : (mkScored s).roi =
      ediv (esub (esub s.high_price_1h (emul s.high_price_1h (EFloat.fin (1 / 100))))
        s.low_price_1h) s.low_price_1h := rfl
  rw [ht, hr, h1, h2]
  constructor
  · rw [emul_fin_fin]
    norm_num
  · rw [emul_fin_fin, esub_fin_fin, esub_fin_fin,
      ediv_fin_fin_of_ne _ _ (by norm_num : (100 : ℚ) ≠ 0)]
    norm_num

/-- Witness for C7 at the concrete snapshot with 1h prices 110 and 100. -/
theorem claim_C7_witness :
    (mkScored snapRoi).tax_amount = EFloat.fin (11 / 10) ∧
    (mkScored snapRoi).roi = EFloat.fin (89 / 1000) :=
  (claim_C7 snapRoi).2 rfl rfl

/-- C8: the volume ratio divides the high volume by the low volume with zero
floored to one — for an integer low volume this divisor is exactly
max(low_volume_1h, 1), for a zero low volume it is 1 — the computation is
total, and the result is never an infinity as long as the high volume is
finite or missing. -/
theorem claim_C8 (s : Snapshot) :
    (∀ n : ℕ, s.low_volume_1h = EFloat.fin n →
      (mkScored s).volume_ratio = ediv s.high_volume_1h (EFloat.fin (max (n : ℚ) 1))) ∧
    (s.low_volume_1h = EFloat.fin 0 →
      (mkScored s).volume_ratio = ediv s.high_volume_1h (EFloat.fin 1)) ∧
    (s.high_volume_1h ≠ EFloat.pinf → s.high_volume_1h ≠ EFloat.ninf →
      (mkScored s).volume_ratio ≠ EFloat.pinf ∧ (mkScored s).volume_ratio ≠ EFloat.ninf) := by
  have hv : (mkScored s).volume_ratio = ediv s.high_volume_1h (replace01 s.low_volume_1h) := rfl
  refine ⟨?_, ?_, ?_⟩
  · intro n h
    rw [hv, h]
    by_cases hn : n = 0
    · subst hn
      simp [replace01]
    · have h1 : (1 : ℚ) ≤ (n : ℚ) := by exact_mod_cast Nat.one_le_iff_ne_zero.mpr hn
      have hne : (n : ℚ) ≠ 0 := by exact_mod_cast hn
      rw [max_eq_left h1]
      simp [replace01, hne]
  · intro h
    rw [hv, h]
    simp [replace01]
  · intro hp hn
    rw [hv]
    rcases hs : s.high_volume_1h with q | _ | _ | _
    · rcases hl : s.low_volume_1h with p | _ | _ | _
      · by_cases hp0 : p = 0
        · subst hp0
          have hrep : replace01 (fin 0) = fin 1 := by simp [replace01]
          rw [hrep, ediv_fin_fin_of_ne q 1 one_ne_zero]
          exact ⟨by simp, by simp⟩
        · have hrep : replace01 (fin p) = fin p := by simp [replace01, hp0]
          rw [hrep, ediv_fin_fin_of_ne q p hp0]
          exact ⟨by simp, by simp⟩
      · exact ⟨by simp [replace01, ediv], by simp [replace01, ediv]⟩
      · exact ⟨by simp [replace01, ediv], by simp [replace01, ediv]⟩
      · exact ⟨by simp [replace01, ediv], by simp [replace01, ediv]⟩
    · exact absurd hs hp
    · exact absurd hs hn
    · exact ⟨by simp [ediv], by simp [ediv]⟩

/-- Witness for C8 at the concrete snapshot with high volume 7 and low
volume 0: the divisor is 1 and the ratio is the finite value 7. -/
theorem claim_C8_witness :
    (mkScored snapVr).volume_ratio = ediv (EFloat.fin 7) (EFloat.fin (max ((0 : ℕ) : ℚ) 1)) ∧
    (mkScored snapVr).volume_ratio = ediv (EFloat.fin 7) (EFloat.fin 1) ∧
    (mkScored snapVr).volume_ratio ≠ EFloat.pinf ∧
    (mkScored snapVr).volume_ratio = EFloat.fin 7 := by
  refine ⟨(claim_C8 snapVr).1 0 rfl, (claim_C8 snapVr).2.1 rfl,
    ((claim_C8 snapVr).2.2 (by decide) (by decide)).1, ?_⟩
  show ediv (fin 7) (replace01 (fin 0)) = EFloat.fin 7
  norm_num [replace01, ediv]

/-- C9: an empty catalog makes the population restriction the identity, while
a non-empty catalog keeps exactly the rows whose item_id is a catalog key.
The same restrict operation is what both the recent-window analysis
(main.py line 193) and the historical throughput computation (main.py
line 140) apply. -/
theorem claim_C9 :
    (∀ rows : List Snapshot, restrict [] rows = rows) ∧
    (∀ (catalog : List (String × CatMeta)) (rows : List Snapshot), catalog ≠ [] →
      ∀ s : Snapshot,
        s ∈ restrict catalog rows ↔ s ∈ rows ∧ s.item_id ∈ catalog.map Prod.fst) := by
  constructor
  · intro rows
    simp [restrict]
  · intro catalog rows hc s
    have hne : catalog.isEmpty = false := by
      cases catalog with
      | nil => exact absurd rfl hc
      | cons a t => rfl
    simp [restrict, hne, List.mem_filter]

/-- Witness for C9: the one-entry catalog keeps the matching row, and the
empty catalog passes the table through. -/
theorem claim_C9_witness :
    restrict [] [snapVr] = [snapVr] ∧
    (snapVr ∈ restrict catOne [snapVr] ↔ snapVr ∈ [snapVr] ∧ snapVr.item_id ∈ catOne.map Prod.fst) := by
  exact ⟨(claim_C9.1) [snapVr], (claim_C9.2) catOne [snapVr] (by decide) snapVr⟩

/-- The scoring stage leaves the key untouched. -/
theorem zRow_item_id (sq : ℚ → ℚ) (pop : List ORow) (r : ORow) :
    (zRow sq pop r).item_id = r.item_id := rfl

/-- The scoring stage leaves the low volume untouched. -/
theorem zRow_lv (sq : ℚ → ℚ) (pop : List ORow) (r : ORow) :
    (zRow sq pop r).low_volume_1h = r.low_volume_1h := rfl

/-- The scoring stage leaves the throughput untouched. -/
theorem zRow_gps (sq : ℚ → ℚ) (pop : List ORow) (r : ORow) :
    (zRow sq pop r).gold_per_second = r.gold_per_second := rfl

/-- The profit-projection stage leaves the key untouched. -/
theorem setProfit_item_id (r : ORow) : (setProfit r).item_id = r.item_id := rfl

/-- The profit-projection stage leaves the low volume untouched. -/
theorem setProfit_lv (r : ORow) : (setProfit r).low_volume_1h = r.low_volume_1h := rfl

/-- The profit-projection stage leaves the scores untouched. -/
theorem setProfit_scores (r : ORow) :
    (setProfit r).combined_score = r.combined_score ∧
    (setProfit r).roi_zscore = r.roi_zscore ∧
    (setProfit r).volume_ratio_zscore = r.volume_ratio_zscore := ⟨rfl, rfl, rfl⟩

/-- The join stage leaves the key untouched. -/
theorem mergeRow_item_id (g : List GpsRow) (r : ORow) :
    (mergeRow g r).item_id = r.item_id := by
  unfold mergeRow
  cases g.find? (fun e => decide (e.item_id = r.item_id ∧ e.item_name = r.item_name)) <;> rfl

/-- The join stage leaves the low volume untouched. -/
theorem mergeRow_lv (g : List GpsRow) (r : ORow) :
    (mergeRow g r).low_volume_1h = r.low_volume_1h := by
  unfold mergeRow
  cases g.find? (fun e => decide (e.item_id = r.item_id ∧ e.item_name = r.item_name)) <;> rfl

/-- Every key emitted by groupLast occurs in the input table. -/
theorem mem_groupLast_id {sorted : List Snapshot} {s : Snapshot} (h : s ∈ groupLast sorted) :
    s.item_id ∈ sorted.map Snapshot.item_id := by
  unfold groupLast at h
  rcases List.mem_map.mp h with ⟨k, hk, rfl⟩
  show k ∈ sorted.map Snapshot.item_id
  unfold sortedKeys at hk
  have hk2 : k ∈ (sorted.map Snapshot.item_id).dedup :=
    (List.perm_insertionSort strLe _).mem_iff.mp hk
  exact List.mem_dedup.mp hk2

/-- With a non-empty catalog, every row surviving the restriction carries a
catalog key. -/
theorem mem_restrict_keys {catalog : List (String × CatMeta)} {rows : List Snapshot}
    {s : Snapshot} (hc : catalog ≠ []) (h : s ∈ restrict catalog rows) :
    s.item_id ∈ catalog.map Prod.fst := by
  unfold restrict at h
  have hne : catalog.isEmpty = false := by
    cases catalog with
    | nil => exact absurd rfl hc
    | cons a t => rfl
  rw [hne] at h
  simp only [Bool.false_eq_true, if_false] at h
  rcases List.mem_filter.mp h with ⟨_, hkey⟩
  exact of_decide_eq_true hkey

/-- Every row of analyzeItems output is the profit projection of a row that
survived every filter of preSort. -/
theorem mem_analyze_decomp {sortT : List Snapshot → List Snapshot}
    {sortS : List ORow → List ORow} {sq : ℚ → ℚ} {catalog : List (String × CatMeta)}
    {m : ℚ} {recent historical : List Snapshot} {r : ORow}
    (hS : ScoreSortSpec sortS)
    (hr : r ∈ analyzeItems sortT sortS sq catalog m recent historical) :
    ∃ r1 ∈ preSort sortT sq catalog m recent historical, r = setProfit r1 := by
  unfold analyzeItems at hr
  split at hr
  · exact absurd hr (List.not_mem_nil r)
  · split at hr
    · exact absurd hr (List.not_mem_nil r)
    · rcases List.mem_map.mp hr with ⟨r1, h1, rfl⟩
      exact ⟨r1, (hS _).1.mem_iff.mp h1, rfl⟩

/-- Every row of preSort output is the scored image of a merged row that
passed the viability filter, and it passed the throughput gate and the
dropna filter. -/
theorem mem_preSort_decomp {sortT : List Snapshot → List Snapshot} {sq : ℚ → ℚ}
    {catalog : List (String × CatMeta)} {m : ℚ} {recent historical : List Snapshot}
    {r1 : ORow} (hp : r1 ∈ preSort sortT sq catalog m recent historical) :
    ∃ r0 ∈ mergeGps ((groupLast (sortT (restrict catalog recent))).map mkScored)
        (gpsOf catalog historical),
      ege r0.low_volume_1h (EFloat.fin m) = true ∧
      r1 = zRow sq
        ((mergeGps ((groupLast (sortT (restrict catalog recent))).map mkScored)
            (gpsOf catalog historical)).filter
          (fun r => ege r.low_volume_1h (EFloat.fin m))) r0 ∧
      ege r1.gold_per_second (EFloat.fin 0) = true ∧ dropnaOK r1 = true := by
  simp only [preSort] at hp
  rcases List.mem_filter.mp hp with ⟨hp1, hdrop⟩
  rcases List.mem_filter.mp hp1 with ⟨hp2, hgate⟩
  rcases List.mem_map.mp hp2 with ⟨r0, h0, rfl⟩
  rcases List.mem_filter.mp h0 with ⟨hmem, hlv⟩
  exact ⟨r0, hmem, hlv, rfl, hgate, hdrop⟩

/-- Every output row passed the inclusive viability test. -/
theorem lv_ge_of_mem_analyze {sortT : List Snapshot → List Snapshot}
    {sortS : List ORow → List ORow} {sq : ℚ → ℚ} {catalog : List (String × CatMeta)}
    {m : ℚ} {recent historical : List Snapshot}
    (hS : ScoreSortSpec sortS) {r : ORow}
    (hr : r ∈ analyzeItems sortT sortS sq catalog m recent historical) :
    ege r.low_volume_1h (EFloat.fin m) = true := by
  rcases mem_analyze_decomp hS hr with ⟨r1, h1, rfl⟩
  rcases mem_preSort_decomp h1 with ⟨r0, _, hlv, rfl, _, _⟩
  rw [setProfit_lv, zRow_lv]
  exact hlv

/-- With a non-empty catalog, every output row carries a catalog key. -/
theorem id_mem_of_mem_analyze {sortT : List Snapshot → List Snapshot}
    {sortS : List ORow → List ORow} {sq : ℚ → ℚ} {catalog : List (String × CatMeta)}
    {m : ℚ} {recent historical : List Snapshot}
    (hT : TimeSortSpec sortT) (hS : ScoreSortSpec sortS) (hc : catalog ≠ []) {r : ORow}
    (hr : r ∈ analyzeItems sortT sortS sq catalog m recent historical) :
    r.item_id ∈ catalog.map Prod.fst := by
  rcases mem_analyze_decomp hS hr with ⟨r1, h1, rfl⟩
  rcases mem_preSort_decomp h1 with ⟨r0, hmem, _, rfl, _, _⟩
  rw [setProfit_item_id, zRow_item_id]
  rcases List.mem_map.mp hmem with ⟨r2, hr2, rfl⟩
  rw [mergeRow_item_id]
  rcases List.mem_map.mp hr2 with ⟨s, hs, rfl⟩
  show s.item_id ∈ catalog.map Prod.fst
  have hid : s.item_id ∈ (sortT (restrict catalog recent)).map Snapshot.item_id :=
    mem_groupLast_id hs
  have hid2 : s.item_id ∈ (restrict catalog recent).map Snapshot.item_id :=
    ((hT (restrict catalog recent)).1.map Snapshot.item_id).mem_iff.mp hid
  rcases List.mem_map.mp hid2 with ⟨s2, hs2, heq⟩
  rw [← heq]
  exact mem_restrict_keys hc hs2

/-- C3: with a non-empty throughput table, a recent row whose item is absent
from the long-window throughput computation is joined with gold_per_second
exactly 0: the joined row is in the merged table, its throughput cell is not
NaN (so the later dropna never fires on it), it satisfies the
gold_per_second >= 0 gate, and both facts persist through the scoring
stage. -/
theorem claim_C3 (catalog : List (String × CatMeta)) (historical : List Snapshot)
    (rp : List ORow) (r : ORow)
    (hne : gpsOf catalog historical ≠ [])
    (hr : r ∈ rp)
    (hid : r.item_id ∉ (gpsOf catalog historical).map GpsRow.item_id) :
    mergeRow (gpsOf catalog historical) r ∈ mergeGps rp (gpsOf catalog historical) ∧
    (mergeRow (gpsOf catalog historical) r).gold_per_second = EFloat.fin 0 ∧
    ege (mergeRow (gpsOf catalog historical) r).gold_per_second (EFloat.fin 0) = true ∧
    (mergeRow (gpsOf catalog historical) r).gold_per_second.isNan = false ∧
    (∀ (sq : ℚ → ℚ) (pop : List ORow),
      ege (zRow sq pop (mergeRow (gpsOf catalog historical) r)).gold_per_second
        (EFloat.fin 0) = true ∧
      (zRow sq pop (mergeRow (gpsOf catalog historical) r)).gold_per_second.isNan = false) := by
  have hfind : (gpsOf catalog historical).find?
      (fun e => decide (e.item_id = r.item_id ∧ e.item_name = r.item_name)) = none := by
    rw [List.find?_eq_none]
    intro e he hpe
    rcases of_decide_eq_true hpe with ⟨heq, _⟩
    exact hid (List.mem_map.mpr ⟨e, he, heq⟩)
  have hgz : (mergeRow (gpsOf catalog historical) r).gold_per_second = EFloat.fin 0 := by
    unfold mergeRow
    rw [hfind]
  have hge : ege (EFloat.fin 0) (EFloat.fin 0) = true := by
    simp [ege]
  refine ⟨List.mem_map.mpr ⟨r, hr, rfl⟩, hgz, ?_, ?_, ?_⟩
  · rw [hgz]; exact hge
  · rw [hgz]; rfl
  · intro sq pop
    rw [zRow_gps, hgz]
    exact ⟨hge, rfl⟩

/-- Witness for C3: the item b is present in the recent table but absent from
the throughput table built from item a alone; the join gives it throughput 0
and neither the gate nor dropna excludes it. -/
theorem claim_C3_witness :
    mergeRow (gpsOf [] [snapTie "a"]) (mkScored (snapTie "b")) ∈
      mergeGps [mkScored (snapTie "b")] (gpsOf [] [snapTie "a"]) ∧
    (mergeRow (gpsOf [] [snapTie "a"]) (mkScored (snapTie "b"))).gold_per_second =
      EFloat.fin 0 ∧
    ege (mergeRow (gpsOf [] [snapTie "a"]) (mkScored (snapTie "b"))).gold_per_second
      (EFloat.fin 0) = true ∧
    (mergeRow (gpsOf [] [snapTie "a"]) (mkScored (snapTie "b"))).gold_per_second.isNan
      = false := by
  have h := claim_C3 [] [snapTie "a"] [mkScored (snapTie "b")] (mkScored (snapTie "b"))
    (by decide) (by simp) (by decide)
  exact ⟨h.1, h.2.1, h.2.2.1, h.2.2.2.1⟩

/-- C4: the viability filter boundary is inclusive.  Every row of the ranked
output satisfies low_volume_1h >= min_low_volume; a row whose low volume is
min_low_volume - 1 cannot appear in the output; and at the filter itself a
row with low volume exactly min_low_volume is retained precisely when it was
present, so only the other filters can still drop it. -/
theorem claim_C4 (sortT : List Snapshot → List Snapshot) (sortS : List ORow → List ORow)
    (sq : ℚ → ℚ) (catalog : List (String × CatMeta)) (m : ℚ)
    (recent historical : List Snapshot)
    (hT : TimeSortSpec sortT) (hS : ScoreSortSpec sortS) :
    (∀ r ∈ analyzeItems sortT sortS sq catalog m recent historical,
      ege r.low_volume_1h (EFloat.fin m) = true) ∧
    (∀ r : ORow, r.low_volume_1h = EFloat.fin (m - 1) →
      r ∉ analyzeItems sortT sortS sq catalog m recent historical) ∧
    (∀ (l : List ORow) (r : ORow), r.low_volume_1h = EFloat.fin m →
      (r ∈ l.filter (fun x => ege x.low_volume_1h (EFloat.fin m)) ↔ r ∈ l)) := by
  refine ⟨fun r hr => lv_ge_of_mem_analyze hS hr, ?_, ?_⟩
  · intro r hlv hr
    have h := lv_ge_of_mem_analyze hS hr
    rw [hlv] at h
    rw [ege_fin_fin] at h
    have : m ≤ m - 1 := of_decide_eq_true h
    linarith
  · intro l r hlv
    constructor
    · intro h
      exact (List.mem_filter.mp h).1
    · intro h
      refine List.mem_filter.mpr ⟨h, ?_⟩
      rw [hlv, ege_fin_fin]
      exact decide_eq_true le_rfl

/-- C10: the loaded catalog holds only entries whose members flag is exactly
false, and with a non-empty loaded catalog every row of the analysis output
carries one of its keys, so restricted items never appear in any result. -/
theorem claim_C10 (raw : List RawEntry) (sortT : List Snapshot → List Snapshot)
    (sortS : List ORow → List ORow) (sq : ℚ → ℚ) (m : ℚ)
    (recent historical : List Snapshot)
    (hT : TimeSortSpec sortT) (hS : ScoreSortSpec sortS) :
    (∀ e ∈ loadItemMapping raw, ∃ it ∈ raw, it.members = some false ∧ it.id = some e.1) ∧
    (loadItemMapping raw ≠ [] →
      ∀ r ∈ analyzeItems sortT sortS sq (loadItemMapping raw) m recent historical,
        r.item_id ∈ (loadItemMapping raw).map Prod.fst) := by
  constructor
  · intro e he
    rcases List.mem_filterMap.mp he with ⟨it, hit, hf⟩
    refine ⟨it, hit, ?_⟩
    rcases hm : it.members with _ | b
    · rw [hm] at hf; simp at hf
    · rcases hi : it.id with _ | i
      · rw [hm, hi] at hf
        cases b <;> simp at hf
      · rw [hm, hi] at hf
        cases b with
        | false =>
            simp only [Option.some.injEq] at hf
            rw [← hf]
            exact ⟨rfl, rfl⟩
        | true => simp at hf
  · intro hc r hr
    exact id_mem_of_mem_analyze hT hS hc hr

/-- Witness for C10 at a three-entry raw catalog (one unrestricted entry, one
restricted entry, one entry without id): the loaded catalog is non-empty and
its concrete entry traces back to a members-false raw entry. -/
theorem claim_C10_witness :
    (∃ it ∈ [rawFree, rawMember, rawNoId], it.members = some false ∧ it.id = some "1") ∧
    loadItemMapping [rawFree, rawMember, rawNoId] ≠ [] := by
  refine ⟨(claim_C10 [rawFree, rawMember, rawNoId] timeSortImpl scoreSortImpl testSqrt 5
    [snapBuyZero] [snapBuyZero] timeSortImpl_spec scoreSortImpl_spec).1
    ("1", { name := "x", limit := 3, value := 5 }) (by decide), by decide⟩

/-- Elementwise IEEE product of two finite-valued columns is the finite
column of rational products. -/
theorem map_emul_eq_zipWith (f h : Snapshot → EFloat) :
    ∀ (g : List Snapshot) (A B : List ℚ),
      g.map f = A.map EFloat.fin → g.map h = B.map EFloat.fin →
      g.map (fun s => emul (f s) (h s)) = (A.zipWith (· * ·) B).map EFloat.fin := by
  intro g
  induction g with
  | nil =>
      intro A B hA hB
      have hA2 : A = [] := by
        cases A with
        | nil => rfl
        | cons a t => simp at hA
      subst hA2
      simp
  | cons s t ih =>
      intro A B hA hB
      cases A with
      | nil => simp at hA
      | cons a A2 =>
          cases B with
          | nil => simp at hB
          | cons b B2 =>
              simp only [List.map_cons, List.cons.injEq] at hA hB
              simp only [List.map_cons, List.zipWith_cons_cons, List.cons.injEq]
              rw [hA.1, hB.1, emul_fin_fin]
              exact ⟨rfl, ih A2 B2 hA.2 hB.2⟩

/-- C6 (amended): for every snapshot group with finite prices and volumes,
gold_per_second = (total_high_value + total_low_value) / 2 / d where d is the
elapsed span in seconds with an exact zero replaced by 1 — a nonzero
sub-second span is used as-is, not floored to 1; the claim's instance stands:
totals 200 and 100 with a 0-second span give exactly 150. -/
theorem claim_C6 (k : String × String) (g : List Snapshot) (H HV L LV : List ℚ)
    (hH : g.map Snapshot.high_price_1h = H.map EFloat.fin)
    (hHV : g.map Snapshot.high_volume_1h = HV.map EFloat.fin)
    (hL : g.map Snapshot.low_price_1h = L.map EFloat.fin)
    (hLV : g.map Snapshot.low_volume_1h = LV.map EFloat.fin) :
    (gpsRowOf k g).gold_per_second =
      EFloat.fin (specGpsReplace ((H.zipWith (· * ·) HV).sum) ((L.zipWith (· * ·) LV).sum)
        (timeSpan g)) ∧
    specGpsReplace 200 100 0 = 150 ∧
    (∀ span : ℚ, span ≠ 0 → specGpsReplace 200 100 span = 150 / span) := by
  refine ⟨?_, by norm_num [specGpsReplace], ?_⟩
  · simp only [gpsRowOf]
    rw [map_emul_eq_zipWith _ _ g H HV hH hHV, map_emul_eq_zipWith _ _ g L LV hL hLV,
      nansum_map_fin, nansum_map_fin, eadd_fin_fin]
    have h2 : (2 : ℚ) ≠ 0 := by norm_num
    have hs1 : (if timeSpan g = 0 then (1 : ℚ) else timeSpan g) ≠ 0 := by
      split_ifs with h
      · norm_num
      · exact h
    rw [ediv_fin_fin_of_ne _ _ h2, ediv_fin_fin_of_ne _ _ hs1]
    rfl
  · intro span hs
    rw [specGpsReplace, if_neg hs]
    norm_num

/-- Counterexample for C6 as stated: at a group spanning half a second, the
code divides by the raw 1/2-second span and yields 300, while the claim's
floored-to-1-second formula yields 150. -/
theorem claim_C6_counterexample :
    (gpsOf [] [snapSpan 0, snapSpan (1 / 2)]).map GpsRow.gold_per_second = [EFloat.fin 300] ∧
    specGpsFloor 200 100 (1 / 2) = 150 ∧ (300 : ℚ) ≠ 150 := by
  refine ⟨?_, ?_, by norm_num⟩
  · have h1 : gpsOf [] [snapSpan 0, snapSpan (1 / 2)] =
        [gpsRowOf ("1", "x") [snapSpan 0, snapSpan (1 / 2)]] := rfl
    rw [h1, List.map_cons, List.map_nil]
    have h2 : (gpsRowOf ("1", "x") [snapSpan 0, snapSpan (1 / 2)]).gold_per_second
        = EFloat.fin 300 := by
      simp only [gpsRowOf, snapSpan, nansum, nonNanVals, esum, timeSpan, minT, maxT]
      norm_num [eadd, emul, ediv, isNan]
    rw [h2]
  · rw [specGpsFloor]
    rw [max_eq_right (by norm_num : (1 / 2 : ℚ) ≤ 1)]
    norm_num

/-- Witness for C6 at the single-snapshot group with totals 200 and 100 and
span 0: the formula applies and gives exactly 150. -/
theorem claim_C6_witness :
    (gpsRowOf ("1", "x") [snapSpan0]).gold_per_second =
      EFloat.fin (specGpsReplace (([40].zipWith (· * ·) [5]).sum)
        (([20].zipWith (· * ·) [5]).sum) (timeSpan [snapSpan0])) ∧
    specGpsReplace 200 100 0 = 150 ∧
    (gpsRowOf ("1", "x") [snapSpan0]).gold_per_second = EFloat.fin 150 := by
  have h := claim_C6 ("1", "x") [snapSpan0] [40] [5] [20] [5] rfl rfl rfl rfl
  refine ⟨h.1, h.2.1, ?_⟩
  rw [h.1]
  have hspan : timeSpan [snapSpan0] = 0 := by
    norm_num [timeSpan, minT, maxT, snapSpan0]
  rw [hspan]
  norm_num [specGpsReplace]

/-- The latest-snapshot selection leaves the two identical tied snapshots in
key order. -/
theorem tie_group_eval :
    groupLast (timeSortImpl (restrict [] [snapTie "a", snapTie "b"])) =
      [snapTie "a", snapTie "b"] := by decide

/-- The scored image of a tied snapshot. -/
theorem tie_mkScored_eval (i : String) : mkScored (snapTie i) = tieRow i := by
  norm_num [mkScored, snapTie, tieRow, emul, esub, eneg, eadd, ediv, replace01]

/-- The throughput table built from the single historical snapshot of
item a. -/
theorem tie_gps_eval :
    gpsOf [] [snapTie "a"] = [⟨"a", "a", EFloat.fin 25550⟩] := by
  have h1 : gpsOf [] [snapTie "a"] = [gpsRowOf ("a", "a") [snapTie "a"]] := rfl
  rw [h1]
  have h2 : gpsRowOf ("a", "a") [snapTie "a"] = ⟨"a", "a", EFloat.fin 25550⟩ := by
    simp only [gpsRowOf, snapTie, nansum, nonNanVals, esum, timeSpan, minT, maxT]
    norm_num [eadd, emul, ediv, isNan]
  rw [h2]

/-- The tied two-row population reaches the final sort with equal combined
scores, in key order a then b. -/
theorem tie_preSort_eval :
    preSort timeSortImpl testSqrt [] 5 [snapTie "a", snapTie "b"] [snapTie "a"] =
      [zTieA, zTieB] := by
  simp only [preSort]
  rw [tie_group_eval, tie_gps_eval]
  simp only [List.map_cons, List.map_nil, tie_mkScored_eval]
  have hm : mergeGps [tieRow "a", tieRow "b"] [⟨"a", "a", EFloat.fin 25550⟩] =
      [mTieA, mTieB] := rfl
  rw [hm]
  have hv : List.filter (fun r => ege r.low_volume_1h (EFloat.fin 5)) [mTieA, mTieB] =
      [mTieA, mTieB] := rfl
  rw [hv]
  have hz : setZ testSqrt [mTieA, mTieB] = [zTieA, zTieB] := by
    simp only [setZ, zRow, List.map_cons, List.map_nil, nmean, nstd0, nansum, nonNanVals,
      esum, zTieA, zTieB, mTieA, mTieB]
    norm_num [isNan, esqrt, testSqrt, fillna0, ediv, esub, eneg, eadd, emul, tieRow]
  rw [hz]
  have hg : List.filter (fun r => ege r.gold_per_second (EFloat.fin 0)) [zTieA, zTieB] =
      [zTieA, zTieB] := rfl
  rw [hg]
  have hd : List.filter dropnaOK [zTieA, zTieB] = [zTieA, zTieB] := rfl
  rw [hd]

/-- Ranked output of the tied population under the reversing (but
contract-conforming) sort: rows come out b then a. -/
theorem tie_analyze_rev_eval :
    (analyzeItems timeSortImpl revScoreSort testSqrt [] 5 [snapTie "a", snapTie "b"]
      [snapTie "a"]).map (fun r => (r.item_id, r.combined_score)) =
      [("b", EFloat.fin 0), ("a", EFloat.fin 0)] := by
  have hAE : analyzeItems timeSortImpl revScoreSort testSqrt [] 5 [snapTie "a", snapTie "b"]
      [snapTie "a"] =
      (revScoreSort (preSort timeSortImpl testSqrt [] 5 [snapTie "a", snapTie "b"]
        [snapTie "a"])).map setProfit := by
    simp only [analyzeItems]
    rw [tie_gps_eval]
    norm_num
  rw [hAE, tie_preSort_eval]
  have hs : revScoreSort [zTieA, zTieB] = [zTieB, zTieA] := rfl
  rw [hs]
  rfl

/-- Ranked output of the tied population under the insertion-based sort: rows
come out a then b. -/
theorem tie_analyze_impl_eval :
    (analyzeItems timeSortImpl scoreSortImpl testSqrt [] 5 [snapTie "a", snapTie "b"]
      [snapTie "a"]).map (fun r => (r.item_id, r.combined_score)) =
      [("a", EFloat.fin 0), ("b", EFloat.fin 0)] := by
  have hAE : analyzeItems timeSortImpl scoreSortImpl testSqrt [] 5 [snapTie "a", snapTie "b"]
      [snapTie "a"] =
      (scoreSortImpl (preSort timeSortImpl testSqrt [] 5 [snapTie "a", snapTie "b"]
        [snapTie "a"])).map setProfit := by
    simp only [analyzeItems]
    rw [tie_gps_eval]
    norm_num
  rw [hAE, tie_preSort_eval]
  have hs : scoreSortImpl [zTieA, zTieB] = [zTieA, zTieB] := rfl
  rw [hs]
  rfl

/-- C5 (amended): for non-empty inputs the ranked output is a permutation of
the filtered, profit-projected rows, ordered non-increasingly by
combined_score (NaN keys last), and combined_score is the unweighted sum
roi_zscore + volume_ratio_zscore; the relative order of rows with equal
combined_score is not specified by the sort contract. -/
theorem claim_C5 (sortT : List Snapshot → List Snapshot) (sortS : List ORow → List ORow)
    (sq : ℚ → ℚ) (catalog : List (String × CatMeta)) (m : ℚ)
    (recent historical : List Snapshot)
    (hT : TimeSortSpec sortT) (hS : ScoreSortSpec sortS)
    (hr : recent ≠ []) (hg : gpsOf catalog historical ≠ []) :
    (analyzeItems sortT sortS sq catalog m recent historical).Pairwise scoreOrd ∧
    (analyzeItems sortT sortS sq catalog m recent historical).Perm
      ((preSort sortT sq catalog m recent historical).map setProfit) ∧
    (∀ r ∈ analyzeItems sortT sortS sq catalog m recent historical,
      r.combined_score = eadd r.roi_zscore r.volume_ratio_zscore) := by
  have hre : recent.isEmpty = false := by
    cases recent with
    | nil => exact absurd rfl hr
    | cons a t => rfl
  have hge : (gpsOf catalog historical).isEmpty = false := by
    cases hgp : gpsOf catalog historical with
    | nil => exact absurd hgp hg
    | cons a t => rfl
  have hAE : analyzeItems sortT sortS sq catalog m recent historical =
      (sortS (preSort sortT sq catalog m recent historical)).map setProfit := by
    unfold analyzeItems
    rw [hre, hge]
    simp
  refine ⟨?_, ?_, ?_⟩
  · rw [hAE]
    exact List.Pairwise.map setProfit (fun a b h => h) ((hS _).2)
  · rw [hAE]
    exact ((hS _).1).map setProfit
  · intro r hrm
    rcases mem_analyze_decomp hS hrm with ⟨r1, h1, rfl⟩
    rcases mem_preSort_decomp h1 with ⟨r0, _, _, rfl, _, _⟩
    rfl

/-- Counterexample for C5 as stated: the reversing sort satisfies the
sort_values contract, the two tied rows enter the sort in order a then b with
equal combined scores, yet the ranked output lists b before a — ties do not
keep their input order. -/
theorem claim_C5_counterexample :
    ScoreSortSpec revScoreSort ∧
    (preSort timeSortImpl testSqrt [] 5 [snapTie "a", snapTie "b"] [snapTie "a"]).map
      (fun r => (r.item_id, r.combined_score)) =
      [("a", EFloat.fin 0), ("b", EFloat.fin 0)] ∧
    (analyzeItems timeSortImpl revScoreSort testSqrt [] 5 [snapTie "a", snapTie "b"]
      [snapTie "a"]).map (fun r => (r.item_id, r.combined_score)) =
      [("b", EFloat.fin 0), ("a", EFloat.fin 0)] := by
  refine ⟨revScoreSort_spec, ?_, tie_analyze_rev_eval⟩
  rw [tie_preSort_eval]
  rfl

/-- Witness for C5 at the tied two-row input and the insertion-based sort. -/
theorem claim_C5_witness :
    (analyzeItems timeSortImpl scoreSortImpl testSqrt [] 5 [snapTie "a", snapTie "b"]
      [snapTie "a"]).Pairwise scoreOrd ∧
    (analyzeItems timeSortImpl scoreSortImpl testSqrt [] 5 [snapTie "a", snapTie "b"]
      [snapTie "a"]).map (fun r => (r.item_id, r.combined_score)) =
      [("a", EFloat.fin 0), ("b", EFloat.fin 0)] := by
  refine ⟨(claim_C5 timeSortImpl scoreSortImpl testSqrt [] 5 [snapTie "a", snapTie "b"]
    [snapTie "a"] timeSortImpl_spec scoreSortImpl_spec (by simp) (by decide)).1,
    tie_analyze_impl_eval⟩

set_option maxHeartbeats 1000000 in
/-- C1 (bug evaluation): on a viable snapshot whose most recent low price is
exactly 0 while the high side trades, the ranked output contains the row with
buy_total = 0 carrying roi = +infinity: the dropna of line 245 removes only
NaN, and +infinity is not NaN, so neither exclusion promised by the claim
happens. -/
theorem claim_C1 :
    (analyzeItems timeSortImpl scoreSortImpl testSqrt [] 5 [snapBuyZero] [snapBuyZero]).map
      (fun r => (r.buy_total, r.roi)) = [(EFloat.fin 0, EFloat.pinf)] := by
  norm_num [analyzeItems, preSort, mergeGps, mergeRow, mkScored, snapBuyZero, groupLast,
    sortedKeys, lastNonNan, timeSortImpl, scoreSortImpl, restrict, gpsOf, gpsRowOf, pairKeys,
    nansum, nonNanVals, esum, nmean, nstd0, setZ, zRow, dropnaOK, setProfit,
    timeSpan, minT, maxT, eadd, esub, eneg, emul, ediv, ege, isNan, fillna0, replace01,
    esqrt, testSqrt, List.insertionSort, List.orderedInsert, List.dedup, List.find?]

/-- Witness for C4 at the viable single-row input: every output row meets the
threshold 5, and a row with low volume 4 = 5 - 1 is not in the output. -/
theorem claim_C4_witness :
    ((analyzeItems timeSortImpl scoreSortImpl testSqrt [] 5 [snapBuyZero] [snapBuyZero]).all
      (fun r => ege r.low_volume_1h (EFloat.fin 5)) = true) ∧
    mkScored snapLv4 ∉ analyzeItems timeSortImpl scoreSortImpl testSqrt [] 5 [snapBuyZero]
      [snapBuyZero] := by
  constructor
  · rw [List.all_eq_true]
    intro r hrm
    exact (claim_C4 timeSortImpl scoreSortImpl testSqrt [] 5 [snapBuyZero] [snapBuyZero]
      timeSortImpl_spec scoreSortImpl_spec).1 r hrm
  · refine (claim_C4 timeSortImpl scoreSortImpl testSqrt [] 5 [snapBuyZero] [snapBuyZero]
      timeSortImpl_spec scoreSortImpl_spec).2.1 (mkScored snapLv4) ?_
    show EFloat.fin 4 = EFloat.fin (5 - 1)
    norm_num

end RuneQuant
